import Mathlib

/-!
Shallow embedding of the camera-to-immich pipeline core.

The Go sources embedded here:
* `internal/state/state.go` — the persistent processed-file state store
  (`State`, `ProcessedFile`, `Load`, `Save`, `MarkProcessed`, `SyncWithCard`,
  `Clear`, `GetStats`, `IsProcessed`, `GetProcessedFilesMap`).
* `internal/scanner` — `ScanForImages`, `FilterNewFiles`.
* `cmd/camera-to-immich/main.go` (`runWithRAWProcessing`) — worker-count
  computation, the per-job worker body, and the result drain loop.
* `internal/processor/rawtherapee.go` (`ProcessFile`) and
  `internal/processor/dng_converter.go` (`ConvertFile`) — the deterministic
  wrapper logic around the external converter invocations; the external call
  results (command error, output-file existence) are oracle parameters.

Go `time.Time` is modelled as `Nat` (zero value = `0`); `time.Now()` results
are explicit parameters.  A Go `map[string]V` is modelled as an association
list `List (String × V)`; Go guarantees at most one binding per key, which the
embedded operations preserve and some theorems take as a hypothesis.
-/

namespace CameraToImmich

/-- `ProcessedFile` from `state.go`: one record of the processed mapping. -/
structure ProcessedFile where
  filename : String
  processedAt : Nat
  profileUsed : String
  deriving Repr, DecidableEq

/-- `State` from `state.go`.  `processedFiles` models the Go
`map[string]ProcessedFile` as an association list. -/
structure State where
  version : Int
  cardID : String
  lastRun : Nat
  processedFiles : List (String × ProcessedFile)
  statePath : String
  deriving Repr, DecidableEq

/-- Go map assignment `m[k] = v`: replace the binding of `k` if present,
otherwise add one. -/
def mapSet : List (String × ProcessedFile) → String → ProcessedFile →
    List (String × ProcessedFile)
  | [], k, v => [(k, v)]
  | e :: rest, k, v => if e.1 = k then (k, v) :: rest else e :: mapSet rest k v

/-- Go map lookup `_, exists := m[k]`. -/
def mapHasKey (m : List (String × ProcessedFile)) (k : String) : Bool :=
  m.any (fun e => e.1 = k)

/-- `State.IsProcessed` from `state.go`. -/
def State.isProcessed (s : State) (filename : String) : Bool :=
  mapHasKey s.processedFiles filename

/-- `State.MarkProcessed` from `state.go`.  The Go body calls `time.Now()`
twice — once for `ProcessedAt`, once for `LastRun` — so the two observed
times are the parameters `tProc` and `tRun`.  The `outputPath` argument is
accepted and unused, exactly as in the source. -/
def State.markProcessed (s : State) (filename profileUsed outputPath : String)
    (tProc tRun : Nat) : State :=
  let _ := outputPath
  { s with
    processedFiles := mapSet s.processedFiles filename
      { filename := filename, processedAt := tProc, profileUsed := profileUsed }
    lastRun := tRun }

/-- `State.GetProcessedFilesMap` from `state.go`: the `map[string]bool`
keyed by the processed filenames (missing keys look up as `false`). -/
def State.getProcessedFilesMap (s : State) : String → Bool :=
  fun n => mapHasKey s.processedFiles n

/-- `State.GetProcessedCount` from `state.go`. -/
def State.getProcessedCount (s : State) : Nat :=
  s.processedFiles.length

/-- The loop body of `State.SyncWithCard`: iterate over the entries, delete
those whose filename is not on the card, and count the deletions.  Returns
(the surviving entries, the number removed). -/
def syncLoop : List (String × ProcessedFile) → (String → Bool) →
    List (String × ProcessedFile) × Nat
  | [], _ => ([], 0)
  | e :: rest, filesOnCard =>
    let r := syncLoop rest filesOnCard
    if filesOnCard e.1 then (e :: r.1, r.2) else (r.1, r.2 + 1)

/-- `State.SyncWithCard` from `state.go`: removes entries for files no longer
on the card and returns how many were removed. -/
def State.syncWithCard (s : State) (filesOnCard : String → Bool) :
    State × Nat :=
  let r := syncLoop s.processedFiles filesOnCard
  ({ s with processedFiles := r.1 }, r.2)

/-- `State.SetCardID` from `state.go`. -/
def State.setCardID (s : State) (id : String) : State :=
  { s with cardID := id }

/-- `State.Clear` from `state.go`: returns the prior entry count and the
cleared state. -/
def State.clear (s : State) : Nat × State :=
  (s.processedFiles.length,
   { s with processedFiles := [], cardID := "", lastRun := 0 })

/-- `Stats` from `state.go`. -/
structure Stats where
  processedCount : Nat
  lastRun : Nat
  cardID : String
  fileSizeBytes : Int
  deriving Repr, DecidableEq

/-- `State.GetStats` from `state.go`.  The on-disk size comes from `os.Stat`,
modelled by the oracle `statSize` (`none` when the stat fails, leaving the
zero value `0`). -/
def State.getStats (s : State) (statSize : Option Int) : Stats :=
  { processedCount := s.processedFiles.length
    lastRun := s.lastRun
    cardID := s.cardID
    fileSizeBytes := statSize.getD 0 }

/-! ### Persistence: `Load` / `Save` (`state.go`)

`encoding/json` is modelled at document granularity: a well-formed state file
holds a `PersistedDoc`, either the current schema (`State`'s exported fields)
or the legacy schema (`LegacyState`).  `json.Unmarshal` into `State` succeeds
exactly on current-schema documents (the legacy document's `processed_files`
is an array, which does not unmarshal into the map field), matching `Load`'s
try-current-then-legacy order. -/

/-- One persisted state document: the current schema (version, card id,
last-run, processed mapping — `none` models a JSON `null`/absent mapping) or
the legacy schema (`LegacyState` in `state.go`). -/
inductive PersistedDoc where
  | current (version : Int) (cardID : String) (lastRun : Nat)
      (processed : Option (List (String × ProcessedFile)))
  | legacy (lastProcessedFile : String) (lastProcessedTimestamp : Nat)
      (processedFiles : List ProcessedFile)
  deriving Repr, DecidableEq

/-- The migration loop in `Load`: `for _, pf := range legacy.ProcessedFiles
{ state.ProcessedFiles[pf.Filename] = pf }`. -/
def migrateLegacyList (pfs : List ProcessedFile) :
    List (String × ProcessedFile) :=
  pfs.foldl (fun m pf => mapSet m pf.filename pf) []

/-- `State.Load` from `state.go`, given the (already parsed) content of the
state file: `none` is a missing file (empty state), a current-schema document
is taken as-is (with the `nil`-map guard), a legacy-schema document is
migrated in memory. -/
def loadFromDoc (statePath : String) : Option PersistedDoc → State
  | none =>
    { version := 2, cardID := "", lastRun := 0, processedFiles := [],
      statePath := statePath }
  | some (.current v c l p) =>
    { version := v, cardID := c, lastRun := l,
      processedFiles := p.getD [], statePath := statePath }
  | some (.legacy _ ts pfs) =>
    { version := 2, cardID := "", lastRun := ts,
      processedFiles := migrateLegacyList pfs, statePath := statePath }

/-- `json.MarshalIndent(s, ...)` in `State.Save`: the document holding all of
the state's exported fields. -/
def stateToDoc (s : State) : PersistedDoc :=
  .current s.version s.cardID s.lastRun (some s.processedFiles)

/-- A filesystem operation performed by persistence code.  `rename` is never
emitted by this program's `Save`; it is in the type so that the spec's
"write then rename/replace" pattern can be stated about the emitted
operation list. -/
inductive FsOp where
  | writeFile (path : String) (doc : PersistedDoc)
  | rename (src dst : String)
  deriving Repr, DecidableEq

/-- `State.Save` from `state.go`: `os.WriteFile(s.statePath, data, 0644)` —
a single in-place whole-file write of the serialized state.  No temporary
file, no rename. -/
def State.saveProgram (s : State) : List FsOp :=
  [.writeFile s.statePath (stateToDoc s)]

/-- Content of one file path.  `truncated d` stands for any strict prefix of
the serialization of `d` (including the empty file left right after the
`O_TRUNC` open): structurally unparseable, equal to no previous document. -/
inductive FileContent where
  | absent
  | full (d : PersistedDoc)
  | truncated (d : PersistedDoc)
  deriving Repr, DecidableEq

/-- Effect of one completed filesystem operation. -/
def applyOp (fs : String → FileContent) : FsOp → (String → FileContent)
  | .writeFile p d => fun q => if q = p then .full d else fs q
  | .rename src dst =>
    fun q => if q = dst then fs src else if q = src then .absent else fs q

/-- Running a list of filesystem operations to completion. -/
def runOps (fs : String → FileContent) (ops : List FsOp) :
    String → FileContent :=
  ops.foldl applyOp fs

/-- All filesystem states reachable by crashing at any point of the
operation list: before each operation, in the middle of a `writeFile` (the
target is truncated: `os.WriteFile` opens with `O_TRUNC` and then writes),
or after the final operation.  A `rename` is atomic. -/
def crashStates (fs : String → FileContent) :
    List FsOp → List (String → FileContent)
  | [] => [fs]
  | op :: rest =>
    let mid : List (String → FileContent) :=
      match op with
      | .writeFile p d => [fun q => if q = p then .truncated d else fs q]
      | .rename _ _ => []
    fs :: (mid ++ crashStates (applyOp fs op) rest)

/-- The "write the complete document somewhere, then rename/replace it into
place" save pattern that claim C2 attributes to `Save`. -/
def writesWholeThenRenames (ops : List FsOp) (finalPath : String) : Prop :=
  ∃ i j tmp d, i < j ∧ ops.get? i = some (.writeFile tmp d) ∧
    ops.get? j = some (.rename tmp finalPath)

/-! ### Scanner (`internal/scanner`) -/

/-- The characters of a path's last element, in reversed order: scan the
reversed character list up to the first path separator. -/
def revTakeToSep (l : List Char) : List Char :=
  l.reverse.takeWhile (fun c => c ≠ '/')

/-- Scanning a reversed last path element: the extension's reversed
characters up to and including the final dot, or `none` when the element
has no dot (the backward scan of Go's `filepath.Ext`). -/
def extOfRev : List Char → Option (List Char)
  | [] => none
  | c :: cs =>
    if c = '.' then some [c] else (extOfRev cs).map (fun r => c :: r)

/-- `filepath.Ext`: the suffix beginning at the final dot of the last path
element (`""` when that element has no dot). -/
def goExt (s : String) : String :=
  match extOfRev (revTakeToSep s.data) with
  | none => ""
  | some r => ⟨r.reverse⟩

/-- `strings.ToUpper` (camera filenames are ASCII). -/
def goUpper (s : String) : String := ⟨s.data.map Char.toUpper⟩

/-- `strings.TrimSuffix s suffix`. -/
def goTrimSuffix (s suf : String) : String :=
  if suf.data.isSuffixOf s.data then
    ⟨s.data.take (s.data.length - suf.data.length)⟩
  else s

/-- `strings.HasPrefix s p`. -/
def goStartsWith (s p : String) : Bool := p.data.isPrefixOf s.data

/-- `filepath.Join` of a directory and one further element (both nonempty in
every use below, so the simple form suffices). -/
def joinPath (dir elem : String) : String :=
  if dir = "" then elem else dir ++ "/" ++ elem

/-- `FileInfo` from `internal/scanner`. -/
structure FileInfo where
  path : String
  name : String
  size : Int
  modTime : Int
  isRAW : Bool
  isJPG : Bool
  baseName : String
  extension : String
  deriving Repr, DecidableEq

/-- `ScanResult` from `internal/scanner`. -/
structure ScanResult where
  rawFiles : List FileInfo
  jpgFiles : List FileInfo
  basePath : String
  deriving Repr, DecidableEq

/-- One regular file on the volume, as the walk sees it: the directory
components below the volume root, the entry name, and the `os.FileInfo`
attributes. -/
structure VolEntry where
  dir : List String
  name : String
  size : Int
  modTime : Int
  deriving Repr, DecidableEq

/-- Full path of a volume entry (the walk reports paths rooted at the
volume's base path). -/
def VolEntry.fullPath (base : String) (e : VolEntry) : String :=
  String.intercalate "/" (base :: (e.dir ++ [e.name]))

/-- Whether the entry lives below the volume's `DCIM` directory. -/
def VolEntry.underDCIM (e : VolEntry) : Bool :=
  e.dir.head? = some "DCIM"

/-- The walk callback of `ScanForImages` applied to one entry: skip macOS
`._` artifacts, classify by uppercased extension, and append to the RAW or
JPG list. -/
def scanStep (base : String) (rawExtensions : String → Bool)
    (acc : List FileInfo × List FileInfo) (e : VolEntry) :
    List FileInfo × List FileInfo :=
  if goStartsWith e.name "._" then acc
  else
    let path := e.fullPath base
    let ext := goUpper (goExt path)
    let baseName := goTrimSuffix e.name (goExt e.name)
    let fi : FileInfo :=
      { path := path, name := e.name, size := e.size, modTime := e.modTime,
        isRAW := false, isJPG := false, baseName := baseName,
        extension := ext }
    if rawExtensions ext then (acc.1 ++ [{ fi with isRAW := true }], acc.2)
    else if ext = ".JPG" ∨ ext = ".JPEG" then
      (acc.1, acc.2 ++ [{ fi with isJPG := true }])
    else acc

/-- `filepath.Walk` over one search path: visit the entries in listing
order, feeding each through the walk callback. -/
def walkCollect (base : String) (rawExtensions : String → Bool)
    (entries : List VolEntry) (acc : List FileInfo × List FileInfo) :
    List FileInfo × List FileInfo :=
  entries.foldl (scanStep base rawExtensions) acc

/-- `ScanForImages` from `internal/scanner`: walks the search paths
`[basePath/DCIM, basePath]` in order, skipping a search path that does not
exist (`dcimExists` is the `os.Stat` answer for `basePath/DCIM`; the base
path itself always exists).  Walking `basePath` visits every entry of the
volume, the `DCIM` subtree included. -/
def ScanForImages (basePath : String) (vol : List VolEntry)
    (dcimExists : Bool) (rawExtensions : String → Bool) : ScanResult :=
  let afterDCIM :=
    if dcimExists then
      walkCollect basePath rawExtensions (vol.filter VolEntry.underDCIM)
        ([], [])
    else ([], [])
  let both := walkCollect basePath rawExtensions vol afterDCIM
  { rawFiles := both.1, jpgFiles := both.2, basePath := basePath }

/-- `FilterNewFiles` from `internal/scanner`: the append loop keeping the
files whose name is not in the processed map. -/
def FilterNewFiles (files : List FileInfo) (processedFiles : String → Bool) :
    List FileInfo :=
  files.foldl (fun acc f => if processedFiles f.name then acc else acc ++ [f])
    []

/-! ### The run pipeline (`runWithRAWProcessing` in `main.go`) -/

/-- The limit step of `runWithRAWProcessing`:
`if cfg.Limit > 0 && len(newRAWFiles) > cfg.Limit { newRAWFiles =
newRAWFiles[:cfg.Limit] }`. -/
def applyLimit (limit : Int) (files : List FileInfo) : List FileInfo :=
  if limit > 0 ∧ (files.length : Int) > limit then files.take limit.toNat
  else files

/-- The `filesOnCard` map built in `run`: every RAW or JPG name found by the
scan. -/
def filesOnCardMap (scan : ScanResult) : String → Bool :=
  fun n => (scan.rawFiles ++ scan.jpgFiles).any (fun f => f.name = n)

/-- The job list one run submits to the worker pool: scan the volume, sync
the state with the card, filter against the processed mapping, apply the
limit (`run` + `runWithRAWProcessing` in `main.go`). -/
def buildJobList (basePath : String) (vol : List VolEntry)
    (dcimExists : Bool) (rawExtensions : String → Bool) (s : State)
    (limit : Int) : List FileInfo :=
  let scan := ScanForImages basePath vol dcimExists rawExtensions
  let s1 := (s.syncWithCard (filesOnCardMap scan)).1
  let processedMap := s1.getProcessedFilesMap
  applyLimit limit (FilterNewFiles scan.rawFiles processedMap)

/-- The worker-count computation of `runWithRAWProcessing` (`main.go`):
configured count if positive, otherwise CPU cores capped at the default max
of 4; then never more workers than files. -/
def computeNumWorkers (cfgWorkers numCPU : Int) (fileCount : Nat) : Int :=
  let defaultMaxWorkers : Int := 4
  let n := if cfgWorkers > 0 then cfgWorkers
    else if numCPU > defaultMaxWorkers then defaultMaxWorkers else numCPU
  if n > (fileCount : Int) then (fileCount : Int) else n

/-! ### Processor wrappers (`rawtherapee.go`, `dng_converter.go`)

The external command invocation and the output-file `os.Stat` checks are
oracles; everything around them is the source's deterministic logic. -/

/-- `filepath.Base`: the last element of a slash-separated path (the paths
this program forms are nonempty without trailing separators). -/
def goBase (p : String) : String := ⟨(revTakeToSep p.data).reverse⟩

/-- `RawTherapeeConfig` (the fields `ProcessFile` reads). -/
structure RawTherapeeConfig where
  outputDir : String
  quality : Int
  profilePath : String
  deriving Repr, DecidableEq

/-- `RawTherapee.ProcessFile` from `rawtherapee.go`: returns
`(outputPath, nil)` on success and `("", err)` on a command failure or a
missing output file.  `cmdErr` is the external `rawtherapee-cli` result,
`outputExists` the `os.Stat` answer for the computed output path. -/
def rtProcessFile (cfg : RawTherapeeConfig) (inputPath : String)
    (cmdErr : Option String) (outputExists : Bool) : String × Option String :=
  let baseName := goTrimSuffix (goBase inputPath) (goExt inputPath)
  let outputPath := joinPath cfg.outputDir (baseName ++ ".jpg")
  match cmdErr with
  | some e => ("", some ("rawtherapee-cli failed: " ++ e))
  | none =>
    if outputExists then (outputPath, none)
    else ("", some ("output file was not created: " ++ outputPath))

/-- `DNGConverterConfig` (the fields `ConvertFile` reads). -/
structure DNGConverterConfig where
  outputDir : String
  compressed : Bool
  embedOriginal : Bool
  deriving Repr, DecidableEq

/-- `DNGConverter.ConvertFile` from `dng_converter.go`: `(path, nil)` on
success — checking the `.dng` output path, then the `.DNG` alternate — and
`("", err)` on a command failure or when neither output file appeared. -/
def dngConvertFile (cfg : DNGConverterConfig) (inputPath : String)
    (cmdErr : Option String) (outputExists altExists : Bool) :
    String × Option String :=
  let baseName := goTrimSuffix (goBase inputPath) (goExt inputPath)
  let outputPath := joinPath cfg.outputDir (baseName ++ ".dng")
  let alternateOutputPath := joinPath cfg.outputDir (baseName ++ ".DNG")
  match cmdErr with
  | some e => ("", some ("Adobe DNG Converter failed: " ++ e))
  | none =>
    if outputExists then (outputPath, none)
    else if altExists then (alternateOutputPath, none)
    else ("", some ("DNG output file was not created: " ++ outputPath))

/-! ### Worker pool (`runWithRAWProcessing` in `main.go`) -/

/-- `processResult` from `runWithRAWProcessing`. -/
structure ProcessResult where
  index : Nat
  rawFile : FileInfo
  outputPath : String
  dngPath : String
  elapsed : Nat
  err : Option String
  deriving Repr, DecidableEq

/-- The outcomes of the external calls a worker makes for one job. -/
structure ExtCalls where
  dngCmdErr : Option String
  dngOutExists : Bool
  dngAltExists : Bool
  rtCmdErr : Option String
  rtOutExists : Bool
  deriving Repr, DecidableEq

/-- The worker-goroutine body of `runWithRAWProcessing` for one job: when
DNG conversion is enabled it runs first, and on its failure the worker emits
the error result and `continue`s — RawTherapee is not invoked.  Otherwise
RawTherapee runs on the (possibly converted) input and the worker emits its
result as returned.  The second component records whether the RawTherapee
step was attempted. -/
def runJob (dngConverter : Option DNGConverterConfig)
    (rt : RawTherapeeConfig) (index : Nat) (rawFile : FileInfo)
    (ext : ExtCalls) (elapsed : Nat) : ProcessResult × Bool :=
  match dngConverter with
  | some dcfg =>
    let d := dngConvertFile dcfg rawFile.path ext.dngCmdErr ext.dngOutExists
      ext.dngAltExists
    match d.2 with
    | some e =>
      ({ index := index, rawFile := rawFile, outputPath := "", dngPath := "",
         elapsed := elapsed, err := some ("DNG conversion failed: " ++ e) },
       false)
    | none =>
      let r := rtProcessFile rt d.1 ext.rtCmdErr ext.rtOutExists
      ({ index := index, rawFile := rawFile, outputPath := r.1,
         dngPath := d.1, elapsed := elapsed, err := r.2 }, true)
  | none =>
    let r := rtProcessFile rt rawFile.path ext.rtCmdErr ext.rtOutExists
    ({ index := index, rawFile := rawFile, outputPath := r.1, dngPath := "",
       elapsed := elapsed, err := r.2 }, true)

/-- The consumer drain loop of `runWithRAWProcessing`: for each received
result, a failed result is logged and skipped; a successful result has its
output collected and its file marked processed.  `tProc`/`tRun` give the
`time.Now()` values observed by the k-th `MarkProcessed` call.  Returns the
final state and the collected `processedJPGs`. -/
def drainLoop (profileName : String) (tProc tRun : Nat → Nat) :
    State → List ProcessResult → Nat → State × List String
  | s, [], _ => (s, [])
  | s, r :: rest, k =>
    if r.err.isSome then drainLoop profileName tProc tRun s rest k
    else
      let s' := s.markProcessed r.rawFile.name profileName r.outputPath
        (tProc k) (tRun k)
      let rec2 := drainLoop profileName tProc tRun s' rest (k + 1)
      (rec2.1, r.outputPath :: rec2.2)

/-- Lookup in the association-list model of the Go map. -/
def mapGet? : List (String × ProcessedFile) → String → Option ProcessedFile
  | [], _ => none
  | e :: rest, k => if e.1 = k then some e.2 else mapGet? rest k

/-! ### Concrete instances used by witnesses and counterexamples -/

/-- A state with two processed entries, used to exercise `SyncWithCard`. -/
def c3s : State :=
  { version := 2, cardID := "card1", lastRun := 20,
    processedFiles :=
      [("A.ORF", { filename := "A.ORF", processedAt := 11,
                   profileUsed := "vivid" }),
       ("Z.ORF", { filename := "Z.ORF", processedAt := 12,
                   profileUsed := "vivid" })],
    statePath := "state.json" }

/-- Card content for the `SyncWithCard` witness: only `A.ORF` remains. -/
def c3present : String → Bool := fun n => n = "A.ORF"

/-- An empty well-formed state, used to exercise `MarkProcessed`. -/
def c5s : State :=
  { version := 2, cardID := "", lastRun := 0, processedFiles := [],
    statePath := "state.json" }

/-- Discovered RAW file `A.ORF` (scenario input). -/
def c6fileA : FileInfo :=
  { path := "/vol/DCIM/A.ORF", name := "A.ORF", size := 10, modTime := 1,
    isRAW := true, isJPG := false, baseName := "A", extension := ".ORF" }

/-- Discovered RAW file `B.ORF` (scenario input). -/
def c6fileB : FileInfo :=
  { path := "/vol/DCIM/B.ORF", name := "B.ORF", size := 10, modTime := 2,
    isRAW := true, isJPG := false, baseName := "B", extension := ".ORF" }

/-- Two new files discovered in order `[A, B]`. -/
def c6files : List FileInfo := [c6fileA, c6fileB]

/-- An empty processed map: nothing processed yet. -/
def c6none : String → Bool := fun _ => false

/-- A state with every field set to a non-zero value, used against
`Clear`. -/
def c10s : State :=
  { version := 7, cardID := "card1", lastRun := 5,
    processedFiles :=
      [("A.ORF", { filename := "A.ORF", processedAt := 1,
                   profileUsed := "vivid" })],
    statePath := "state.json" }

/-- A volume holding a single RAW file inside `DCIM`. -/
def c1vol : List VolEntry :=
  [{ dir := ["DCIM"], name := "A.ORF", size := 10, modTime := 1 }]

/-- The configured RAW extension set `{".ORF"}`. -/
def c1ext : String → Bool := fun e => e = ".ORF"

/-- An empty state for the first run against `c1vol`. -/
def c1s : State :=
  { version := 2, cardID := "", lastRun := 0, processedFiles := [],
    statePath := "state.json" }

/-- The document held by the previously saved state file. -/
def c2old : PersistedDoc := .current 2 "" 3 (some [])

/-- A state about to be saved over the previous save. -/
def c2s : State :=
  { version := 2, cardID := "card1", lastRun := 5,
    processedFiles :=
      [("A.ORF", { filename := "A.ORF", processedAt := 4,
                   profileUsed := "vivid" })],
    statePath := "state.json" }

/-- The filesystem before the save: the state file holds the previous
successful save. -/
def c2fs0 : String → FileContent :=
  fun q => if q = "state.json" then .full c2old else .absent

/-- A processed record for the round-trip witness. -/
def c4pf1 : ProcessedFile :=
  { filename := "A.ORF", processedAt := 1, profileUsed := "vivid" }

/-- A second processed record for the round-trip witness. -/
def c4pf2 : ProcessedFile :=
  { filename := "B.ORF", processedAt := 2, profileUsed := "flat" }

/-- A current-schema state for the round-trip witness. -/
def c4s : State :=
  { version := 2, cardID := "card9", lastRun := 9,
    processedFiles := [("A.ORF", c4pf1)], statePath := "st.json" }

/-- A DNG converter configuration for the worker-outcome witness. -/
def c8dng : DNGConverterConfig :=
  { outputDir := "/dng", compressed := false, embedOriginal := false }

/-- A RawTherapee configuration for the worker-outcome witness. -/
def c8rt : RawTherapeeConfig :=
  { outputDir := "/out", quality := 92, profilePath := "/p/vivid.pp3" }

/-- External-call results where the DNG conversion command fails. -/
def c8ext : ExtCalls :=
  { dngCmdErr := some "exit status 1", dngOutExists := false,
    dngAltExists := false, rtCmdErr := none, rtOutExists := true }

/-- A failed outcome for `A.ORF`. -/
def c9fail : ProcessResult :=
  { index := 0, rawFile := c6fileA, outputPath := "", dngPath := "",
    elapsed := 3, err := some "rawtherapee-cli failed: exit status 1" }

/-- A successful outcome for `B.ORF`. -/
def c9ok : ProcessResult :=
  { index := 1, rawFile := c6fileB, outputPath := "/out/B.jpg",
    dngPath := "", elapsed := 4, err := none }

/-! ### Helper lemmas about the map operations -/

theorem mapGet?_mapSet_self (m : List (String × ProcessedFile)) (k : String)
    (v : ProcessedFile) : mapGet? (mapSet m k v) k = some v := by
  induction m with
  | nil => simp [mapSet, mapGet?]
  | cons e rest ih =>
    by_cases h : e.1 = k
    · simp [mapSet, h, mapGet?]
    · simp [mapSet, h, mapGet?, ih]

theorem countP_key_eq_zero_of_not_mem (m : List (String × ProcessedFile))
    (k : String) (h : k ∉ m.map Prod.fst) :
    m.countP (fun e => e.1 = k) = 0 := by
  induction m with
  | nil => simp
  | cons e rest ih =>
    simp only [List.map_cons, List.mem_cons] at h
    push_neg at h
    rw [List.countP_cons]
    simp only [ih h.2]
    simp [h.1.symm]

theorem countP_key_mapSet (m : List (String × ProcessedFile)) (k : String)
    (v : ProcessedFile) (h : (m.map Prod.fst).Nodup) :
    (mapSet m k v).countP (fun e => e.1 = k) = 1 := by
  induction m with
  | nil => simp [mapSet]
  | cons e rest ih =>
    simp only [List.map_cons, List.nodup_cons] at h
    by_cases he : e.1 = k
    · simp only [mapSet, he, if_pos]
      rw [List.countP_cons]
      have : rest.countP (fun e => e.1 = k) = 0 :=
        countP_key_eq_zero_of_not_mem rest k (he ▸ h.1)
      simp [this]
    · simp only [mapSet, he, if_neg, not_false_iff]
      rw [List.countP_cons]
      simp only [ih h.2]
      simp [he]

theorem map_fst_mapSet (m : List (String × ProcessedFile)) (k : String)
    (v : ProcessedFile) :
    ((mapSet m k v).map Prod.fst) =
      if k ∈ m.map Prod.fst then m.map Prod.fst else m.map Prod.fst ++ [k] := by
  induction m with
  | nil => simp [mapSet]
  | cons e rest ih =>
    by_cases he : e.1 = k
    · simp [mapSet, he]
    · simp only [mapSet, he, if_neg, not_false_iff, List.map_cons, ih,
        List.mem_cons]
      by_cases hk : k ∈ rest.map Prod.fst
      · simp [hk, Ne.symm he]
      · simp [hk, Ne.symm he]

theorem nodup_keys_mapSet (m : List (String × ProcessedFile)) (k : String)
    (v : ProcessedFile) (h : (m.map Prod.fst).Nodup) :
    ((mapSet m k v).map Prod.fst).Nodup := by
  rw [map_fst_mapSet]
  by_cases hk : k ∈ m.map Prod.fst
  · simpa [hk]
  · simpa [hk] using List.Nodup.append h (by simp) (by simpa using hk)

theorem mapHasKey_mapSet (m : List (String × ProcessedFile)) (k n : String)
    (v : ProcessedFile) :
    mapHasKey (mapSet m k v) n = (mapHasKey m n || (n = k : Bool)) := by
  induction m with
  | nil => simp [mapSet, mapHasKey, List.any_cons, eq_comm]
  | cons e rest ih =>
    by_cases he : e.1 = k
    · subst he
      simp [mapSet, mapHasKey, List.any_cons, eq_comm (a := n)]
      by_cases hn : e.1 = n <;> simp [hn, eq_comm]
    · simp only [mapSet, he, if_neg, not_false_iff, mapHasKey,
        List.any_cons] at *
      rw [ih]
      cases h1 : (decide (e.1 = n)) <;> simp

theorem syncLoop_spec (m : List (String × ProcessedFile))
    (p : String → Bool) :
    syncLoop m p = (m.filter (fun e => p e.1), m.countP (fun e => !(p e.1))) := by
  induction m with
  | nil => simp [syncLoop]
  | cons e rest ih =>
    simp only [syncLoop, ih]
    by_cases he : p e.1 = true
    · simp [he, List.filter_cons, List.countP_cons]
    · simp only [Bool.not_eq_true] at he
      simp [he, List.filter_cons, List.countP_cons]

theorem filterNewFiles_foldl (files : List FileInfo) (m : String → Bool)
    (acc : List FileInfo) :
    files.foldl (fun acc f => if m f.name then acc else acc ++ [f]) acc =
      acc ++ files.filter (fun f => !(m f.name)) := by
  induction files generalizing acc with
  | nil => simp
  | cons f rest ih =>
    by_cases h : m f.name = true
    · simp [List.foldl_cons, h, ih, List.filter_cons]
    · simp only [Bool.not_eq_true] at h
      simp [List.foldl_cons, h, ih, List.filter_cons]

theorem filterNewFiles_eq_filter (files : List FileInfo) (m : String → Bool) :
    FilterNewFiles files m = files.filter (fun f => !(m f.name)) := by
  simpa using filterNewFiles_foldl files m []

theorem mapSet_of_key_not_mem (m : List (String × ProcessedFile))
    (k : String) (v : ProcessedFile) (h : k ∉ m.map Prod.fst) :
    mapSet m k v = m ++ [(k, v)] := by
  induction m with
  | nil => simp [mapSet]
  | cons e rest ih =>
    simp only [List.map_cons, List.mem_cons] at h
    push_neg at h
    simp [mapSet, Ne.symm h.1, ih h.2]

theorem migrateLegacy_foldl (pfs : List ProcessedFile)
    (acc : List (String × ProcessedFile))
    (h : (acc.map Prod.fst ++ pfs.map ProcessedFile.filename).Nodup) :
    pfs.foldl (fun m pf => mapSet m pf.filename pf) acc =
      acc ++ pfs.map (fun pf => (pf.filename, pf)) := by
  induction pfs generalizing acc with
  | nil => simp
  | cons pf rest ih =>
    have hh : (acc.map Prod.fst ++ (pf.filename ::
        rest.map ProcessedFile.filename)).Nodup := by simpa using h
    have hnotmem : pf.filename ∉ acc.map Prod.fst := by
      intro hmem
      exact (List.disjoint_of_nodup_append hh) hmem (List.mem_cons_self _ _)
    have hstep : mapSet acc pf.filename pf = acc ++ [(pf.filename, pf)] :=
      mapSet_of_key_not_mem acc pf.filename pf hnotmem
    have hrest : (((acc ++ [(pf.filename, pf)]).map Prod.fst) ++
        rest.map ProcessedFile.filename).Nodup := by
      have he : ((acc ++ [(pf.filename, pf)]).map Prod.fst) ++
          rest.map ProcessedFile.filename =
          acc.map Prod.fst ++ (pf.filename ::
            rest.map ProcessedFile.filename) := by
        simp
      rw [he]
      exact hh
    calc (pf :: rest).foldl (fun m pf => mapSet m pf.filename pf) acc
        = rest.foldl (fun m pf => mapSet m pf.filename pf)
            (acc ++ [(pf.filename, pf)]) := by rw [List.foldl_cons, hstep]
      _ = (acc ++ [(pf.filename, pf)]) ++
            rest.map (fun pf => (pf.filename, pf)) := ih _ hrest
      _ = acc ++ (pf :: rest).map (fun pf => (pf.filename, pf)) := by simp

theorem migrateLegacyList_eq_map (pfs : List ProcessedFile)
    (h : (pfs.map ProcessedFile.filename).Nodup) :
    migrateLegacyList pfs = pfs.map (fun pf => (pf.filename, pf)) := by
  simpa [migrateLegacyList] using migrateLegacy_foldl pfs [] (by simpa using h)

theorem drainLoop_isProcessed (profileName : String) (tProc tRun : Nat → Nat)
    (outcomes : List ProcessResult) (s : State) (k : Nat) (n : String) :
    (drainLoop profileName tProc tRun s outcomes k).1.isProcessed n =
      (s.isProcessed n ||
        outcomes.any (fun o => !o.err.isSome && (o.rawFile.name = n : Bool))) := by
  induction outcomes generalizing s k with
  | nil => simp [drainLoop]
  | cons o rest ih =>
    cases herr : o.err with
    | some e => simp [drainLoop, herr, ih, List.any_cons]
    | none =>
      simp only [drainLoop, herr, Option.isSome_none, Bool.false_eq_true,
        if_false, ih]
      have hmark : (s.markProcessed o.rawFile.name profileName o.outputPath
          (tProc k) (tRun k)).isProcessed n =
          (s.isProcessed n || (n = o.rawFile.name : Bool)) := by
        simp [State.markProcessed, State.isProcessed, mapHasKey_mapSet]
      rw [hmark]
      by_cases hn : n = o.rawFile.name
      · simp [List.any_cons, hn, herr]
      · simp [List.any_cons, hn, Ne.symm hn, Bool.or_assoc]

theorem append_jpg_ne_empty (b : String) : b ++ ".jpg" ≠ "" := by
  intro h
  have hlen := congrArg String.length h
  simp only [String.length_append] at hlen
  have h4 : (".jpg" : String).length = 4 := rfl
  have h0 : ("" : String).length = 0 := rfl
  rw [h4, h0] at hlen
  omega

theorem joinPath_ne_empty (dir n : String) (hn : n ≠ "") :
    joinPath dir n ≠ "" := by
  unfold joinPath
  split_ifs with h
  · exact hn
  · intro hcontra
    have hlen := congrArg String.length hcontra
    simp only [String.length_append] at hlen
    have h1 : ("/" : String).length = 1 := rfl
    have h0 : ("" : String).length = 0 := rfl
    rw [h1, h0] at hlen
    omega

theorem rtProcessFile_cases (cfg : RawTherapeeConfig) (inputPath : String)
    (cmdErr : Option String) (outputExists : Bool) :
    (rtProcessFile cfg inputPath cmdErr outputExists).2.isSome =
      (cmdErr.isSome || !outputExists) ∧
    ((rtProcessFile cfg inputPath cmdErr outputExists).2 = none →
      (rtProcessFile cfg inputPath cmdErr outputExists).1 ≠ "") ∧
    ((rtProcessFile cfg inputPath cmdErr outputExists).2.isSome = true →
      (rtProcessFile cfg inputPath cmdErr outputExists).1 = "") := by
  cases cmdErr with
  | some e => simp [rtProcessFile]
  | none =>
    cases outputExists with
    | false => simp [rtProcessFile]
    | true =>
      refine ⟨by simp [rtProcessFile], fun _ => ?_, by simp [rtProcessFile]⟩
      simpa [rtProcessFile] using
        joinPath_ne_empty cfg.outputDir _ (append_jpg_ne_empty _)

theorem dngConvertFile_cases (cfg : DNGConverterConfig) (inputPath : String)
    (cmdErr : Option String) (outputExists altExists : Bool) :
    (dngConvertFile cfg inputPath cmdErr outputExists altExists).2.isSome =
      (cmdErr.isSome || (!outputExists && !altExists)) ∧
    ((dngConvertFile cfg inputPath cmdErr outputExists altExists).2.isSome =
        true →
      (dngConvertFile cfg inputPath cmdErr outputExists altExists).1 = "") := by
  cases cmdErr with
  | some e => simp [dngConvertFile]
  | none =>
    cases outputExists <;> cases altExists <;> simp [dngConvertFile]

/-! ### Claim theorems -/

/-- C3: for every processed mapping and every set of present filenames,
`SyncWithCard` removes exactly the entries whose filename is not present and
returns the number removed; every entry whose filename is present is left
completely unchanged (the surviving mapping is literally the sub-list of
present-keyed entries, records — timestamps and profiles — included). -/
theorem C3_syncWithCard_removes_exactly_absent (s : State)
    (present : String → Bool) :
    (s.syncWithCard present).1.processedFiles =
      s.processedFiles.filter (fun e => present e.1) ∧
    (s.syncWithCard present).2 =
      s.processedFiles.countP (fun e => !(present e.1)) ∧
    (∀ e ∈ s.processedFiles, present e.1 = true →
      e ∈ (s.syncWithCard present).1.processedFiles) ∧
    (∀ e ∈ (s.syncWithCard present).1.processedFiles,
      e ∈ s.processedFiles ∧ present e.1 = true) := by
  have h := syncLoop_spec s.processedFiles present
  refine ⟨?_, ?_, ?_, ?_⟩
  · simp [State.syncWithCard, h]
  · simp [State.syncWithCard, h]
  · intro e he hp
    simp only [State.syncWithCard, h, List.mem_filter]
    exact ⟨he, hp⟩
  · intro e he
    simp only [State.syncWithCard, h, List.mem_filter] at he
    exact he

/-- C3 witness: the theorem applied at a concrete state and card content. -/
theorem C3_syncWithCard_witness :
    ((c3s.syncWithCard c3present).1.processedFiles =
      c3s.processedFiles.filter (fun e => c3present e.1) ∧
    (c3s.syncWithCard c3present).2 =
      c3s.processedFiles.countP (fun e => !(c3present e.1)) ∧
    (∀ e ∈ c3s.processedFiles, c3present e.1 = true →
      e ∈ (c3s.syncWithCard c3present).1.processedFiles) ∧
    (∀ e ∈ (c3s.syncWithCard c3present).1.processedFiles,
      e ∈ c3s.processedFiles ∧ c3present e.1 = true)) ∧
    (c3s.syncWithCard c3present).2 = 1 ∧
    (c3s.syncWithCard c3present).1.processedFiles =
      [("A.ORF", { filename := "A.ORF", processedAt := 11,
                     profileUsed := "vivid" })] :=
  ⟨C3_syncWithCard_removes_exactly_absent c3s c3present, by decide, by decide⟩

/-- C5: two `MarkProcessed` calls for the same filename leave exactly one
entry for it, carrying the second call's timestamp and profile, and each
call refreshes `LastRun` to the time observed by that call. -/
theorem C5_markProcessed_idempotent_upsert (s : State)
    (f p1 p2 op1 op2 : String) (t1 t1' t2 t2' : Nat)
    (h : (s.processedFiles.map Prod.fst).Nodup) :
    ((s.markProcessed f p1 op1 t1 t1').markProcessed f p2 op2 t2
        t2').processedFiles.countP (fun e => e.1 = f) = 1 ∧
    mapGet? ((s.markProcessed f p1 op1 t1 t1').markProcessed f p2 op2 t2
        t2').processedFiles f =
      some { filename := f, processedAt := t2, profileUsed := p2 } ∧
    (s.markProcessed f p1 op1 t1 t1').lastRun = t1' ∧
    ((s.markProcessed f p1 op1 t1 t1').markProcessed f p2 op2 t2
        t2').lastRun = t2' := by
  refine ⟨?_, mapGet?_mapSet_self _ f _, rfl, rfl⟩
  exact countP_key_mapSet _ f _ (nodup_keys_mapSet _ f _ h)

/-- C5 witness: the theorem applied at a concrete well-formed state. -/
theorem C5_markProcessed_witness :
    ((c5s.processedFiles.map Prod.fst).Nodup) ∧
    (((c5s.markProcessed "A.ORF" "vivid" "o1" 1 2).markProcessed "A.ORF"
        "flat" "o2" 3 4).processedFiles.countP
          (fun e => e.1 = "A.ORF") = 1 ∧
     mapGet? ((c5s.markProcessed "A.ORF" "vivid" "o1" 1 2).markProcessed
        "A.ORF" "flat" "o2" 3 4).processedFiles "A.ORF" =
       some { filename := "A.ORF", processedAt := 3, profileUsed := "flat" } ∧
     (c5s.markProcessed "A.ORF" "vivid" "o1" 1 2).lastRun = 2 ∧
     ((c5s.markProcessed "A.ORF" "vivid" "o1" 1 2).markProcessed "A.ORF"
        "flat" "o2" 3 4).lastRun = 4) :=
  ⟨by decide, C5_markProcessed_idempotent_upsert c5s "A.ORF" "vivid" "flat"
    "o1" "o2" 1 2 3 4 (by decide)⟩

/-- C6: `FilterNewFiles` keeps, in discovery order, exactly the files whose
name is absent from the processed map, and a configured positive limit
smaller than the new-file count truncates the list to its stable prefix of
that length. -/
theorem C6_filter_and_limit (files : List FileInfo) (m : String → Bool)
    (L : Int) (hL : 0 < L)
    (hlen : L < ((FilterNewFiles files m).length : Int)) :
    FilterNewFiles files m = files.filter (fun f => !(m f.name)) ∧
    applyLimit L (FilterNewFiles files m) =
      (FilterNewFiles files m).take L.toNat := by
  refine ⟨filterNewFiles_eq_filter files m, ?_⟩
  unfold applyLimit
  rw [if_pos ⟨hL, hlen⟩]

/-- C6 witness: limit 1 with two new files discovered in order `[A, B]`
submits exactly `[A]`. -/
theorem C6_filter_and_limit_witness :
    ((0 : Int) < 1 ∧ (1 : Int) < ((FilterNewFiles c6files c6none).length : Int)) ∧
    (FilterNewFiles c6files c6none =
      c6files.filter (fun f => !(c6none f.name)) ∧
     applyLimit 1 (FilterNewFiles c6files c6none) =
      (FilterNewFiles c6files c6none).take (1 : Int).toNat) ∧
    applyLimit 1 (FilterNewFiles c6files c6none) = [c6fileA] ∧
    (FilterNewFiles c6files c6none).map FileInfo.name = ["A.ORF", "B.ORF"] :=
  ⟨⟨by decide, by decide⟩,
   C6_filter_and_limit c6files c6none 1 (by decide) (by decide),
   by decide, by decide⟩

/-- C7: for a non-empty job list, `W` workers are spawned where
`W = max(1, min(w, N))`, `w` being the configured count when positive and
otherwise the core count capped at 4; an explicit positive override is not
capped at 4. -/
theorem C7_worker_count (w cpu : Int) (N : Nat) (hN : 1 ≤ N)
    (hcpu : 1 ≤ cpu) :
    computeNumWorkers w cpu N =
      max 1 (min (if w > 0 then w else min cpu 4) (N : Int)) ∧
    (4 < w → w ≤ (N : Int) → computeNumWorkers w cpu N = w) := by
  simp only [computeNumWorkers]
  constructor
  · split_ifs <;> omega
  · intro h4 hwN
    split_ifs <;> omega

/-- C7 witness: 100 jobs, 2 cores, explicit override of 8 workers → 8
workers, above the default cap of 4. -/
theorem C7_worker_count_witness :
    ((1 : Nat) ≤ 100 ∧ (1 : Int) ≤ 2) ∧
    (computeNumWorkers 8 2 100 =
       max 1 (min (if (8 : Int) > 0 then 8 else min 2 4) (100 : Int)) ∧
     ((4 : Int) < 8 → (8 : Int) ≤ (100 : Int) →
       computeNumWorkers 8 2 100 = 8)) ∧
    computeNumWorkers 8 2 100 = 8 :=
  ⟨⟨by decide, by decide⟩, C7_worker_count 8 2 100 (by decide) (by decide),
   by decide⟩

/-- C10 counterexample: `Clear` leaves `Version` unchanged as well, so the
state-file path is not the only field it leaves unchanged — at this state
every other field does change, but `Version` stays `7`. -/
theorem C10_clear_counterexample :
    (State.clear c10s).2.version = c10s.version ∧
    c10s.version ≠ 0 ∧
    (State.clear c10s).2.cardID ≠ c10s.cardID ∧
    (State.clear c10s).2.lastRun ≠ c10s.lastRun ∧
    (State.clear c10s).2.processedFiles ≠ c10s.processedFiles ∧
    (State.clear c10s).2.statePath = c10s.statePath := by
  decide

/-- C10 (amended): `Clear` returns the prior entry count, empties the
mapping, drops the card id, resets `LastRun` to the zero time — leaving the
state-file path and the format version (both) unchanged — and state
introspection after the clear reports a zero last-run and zero entries. -/
theorem C10_clear_spec (s : State) (statSize : Option Int) :
    (State.clear s).1 = s.processedFiles.length ∧
    (State.clear s).2.processedFiles = [] ∧
    (State.clear s).2.cardID = "" ∧
    (State.clear s).2.lastRun = 0 ∧
    (State.clear s).2.statePath = s.statePath ∧
    (State.clear s).2.version = s.version ∧
    ((State.clear s).2.getStats statSize).lastRun = 0 ∧
    ((State.clear s).2.getStats statSize).processedCount = 0 :=
  ⟨rfl, rfl, rfl, rfl, rfl, rfl, rfl, rfl⟩

/-- C1: on a volume whose only file is `DCIM/A.ORF` and with an empty
state, the scanner walks both `DCIM` and the volume root (which contains
`DCIM` again), so the job list submitted to the worker pool contains the
one discovered file twice — the claim's "at most once" is violated by the
code. -/
theorem C1_dcim_file_submitted_twice :
    (buildJobList "/vol" c1vol true c1ext c1s 0).map FileInfo.name =
      ["A.ORF", "A.ORF"] ∧
    1 < ((buildJobList "/vol" c1vol true c1ext c1s 0).countP
      (fun f => f.name = "A.ORF")) := by
  constructor
  · rfl
  · decide

/-- C2 counterexample: `Save` on a concrete state emits no
write-then-rename pattern at all, and crashing in the middle of its single
in-place write leaves the state file truncated — neither the previous save
nor the new document. -/
theorem C2_save_counterexample :
    ¬ writesWholeThenRenames (State.saveProgram c2s) "state.json" ∧
    ∃ fsC ∈ crashStates c2fs0 (State.saveProgram c2s),
      fsC "state.json" ≠ c2fs0 "state.json" ∧
      fsC "state.json" ≠ .full (stateToDoc c2s) := by
  constructor
  · rintro ⟨i, j, tmp, d, hij, hi, hj⟩
    cases j with
    | zero => omega
    | succ n => simp [State.saveProgram] at hj
  · refine ⟨fun q => if q = c2s.statePath then .truncated (stateToDoc c2s)
      else c2fs0 q, ?_, by decide, by decide⟩
    simp [crashStates, State.saveProgram]

/-- C2 (amended): `Save` serializes the whole in-memory state and
overwrites the persisted file in place with one whole-file write — after an
uninterrupted save the file holds exactly the new document — but it uses no
temporary file and no rename, and a crash mid-write can leave the file
truncated. -/
theorem C2_save_overwrites_in_place (s : State) (fs : String → FileContent) :
    State.saveProgram s = [FsOp.writeFile s.statePath (stateToDoc s)] ∧
    runOps fs (State.saveProgram s) s.statePath = .full (stateToDoc s) ∧
    ¬ writesWholeThenRenames (State.saveProgram s) s.statePath ∧
    (fun q => if q = s.statePath then FileContent.truncated (stateToDoc s)
      else fs q) ∈ crashStates fs (State.saveProgram s) := by
  refine ⟨rfl, ?_, ?_, ?_⟩
  · simp [runOps, State.saveProgram, applyOp]
  · rintro ⟨i, j, tmp, d, hij, hi, hj⟩
    cases j with
    | zero => omega
    | succ n => simp [State.saveProgram] at hj
  · simp [crashStates, State.saveProgram]

/-- C4: saving a current-schema state and loading the written document
reproduces the state exactly (so in particular the same filename keys with
the same `profileUsed` values); and a legacy-schema document with distinct
filenames loads into the same filename-to-record mapping as the
corresponding current-schema document. -/
theorem C4_roundtrip_and_legacy (s : State) (path f : String) (ts : Nat)
    (L : List ProcessedFile) (v : Int) (c : String) (l : Nat)
    (h : (L.map ProcessedFile.filename).Nodup) :
    loadFromDoc s.statePath (some (stateToDoc s)) = s ∧
    (loadFromDoc path (some (.legacy f ts L))).processedFiles =
      (loadFromDoc path (some (.current v c l
        (some (L.map (fun pf => (pf.filename, pf))))))).processedFiles := by
  refine ⟨rfl, ?_⟩
  simp [loadFromDoc, migrateLegacyList_eq_map L h]

/-- C4 witness: the theorem applied at a concrete state and a concrete
two-record legacy document. -/
theorem C4_roundtrip_witness :
    (([c4pf1, c4pf2].map ProcessedFile.filename).Nodup) ∧
    (loadFromDoc c4s.statePath (some (stateToDoc c4s)) = c4s ∧
     (loadFromDoc "p" (some (.legacy "x" 3 [c4pf1, c4pf2]))).processedFiles =
       (loadFromDoc "p" (some (.current 2 "" 0
         (some ([c4pf1, c4pf2].map
           (fun pf => (pf.filename, pf))))))).processedFiles) :=
  ⟨by decide,
   C4_roundtrip_and_legacy c4s "p" "x" 3 [c4pf1, c4pf2] 2 "" 0 (by decide)⟩

/-- C8: every outcome a worker emits has exactly one of `outputPath` and
`err` set; a DNG pre-conversion failure yields an error outcome with empty
`outputPath` and the RawTherapee step is not attempted; a RawTherapee
failure yields an error outcome with empty `outputPath`; a successful
outcome has a non-empty `outputPath` and no error. -/
theorem C8_outcome_exactly_one (dng : Option DNGConverterConfig)
    (rt : RawTherapeeConfig) (idx : Nat) (rawFile : FileInfo)
    (ext : ExtCalls) (elapsed : Nat) :
    (((runJob dng rt idx rawFile ext elapsed).1.err = none ∧
       (runJob dng rt idx rawFile ext elapsed).1.outputPath ≠ "") ∨
     ((runJob dng rt idx rawFile ext elapsed).1.err.isSome = true ∧
       (runJob dng rt idx rawFile ext elapsed).1.outputPath = "")) ∧
    (∀ dcfg, dng = some dcfg →
      (dngConvertFile dcfg rawFile.path ext.dngCmdErr ext.dngOutExists
        ext.dngAltExists).2.isSome = true →
      (runJob dng rt idx rawFile ext elapsed).1.err.isSome = true ∧
      (runJob dng rt idx rawFile ext elapsed).1.outputPath = "" ∧
      (runJob dng rt idx rawFile ext elapsed).2 = false) ∧
    ((runJob dng rt idx rawFile ext elapsed).2 = true →
      (ext.rtCmdErr.isSome = true ∨ ext.rtOutExists = false) →
      (runJob dng rt idx rawFile ext elapsed).1.err.isSome = true ∧
      (runJob dng rt idx rawFile ext elapsed).1.outputPath = "") := by
  cases dng with
  | none =>
    obtain ⟨hiff, hok, hfail⟩ :=
      rtProcessFile_cases rt rawFile.path ext.rtCmdErr ext.rtOutExists
    refine ⟨?_, ?_, ?_⟩
    · cases herr : (rtProcessFile rt rawFile.path ext.rtCmdErr
        ext.rtOutExists).2 with
      | none => exact Or.inl ⟨by simp [runJob, herr], by
          simpa [runJob, herr] using hok herr⟩
      | some e => exact Or.inr ⟨by simp [runJob, herr], by
          simpa [runJob, herr] using hfail (by simp [herr])⟩
    · intro dcfg hd; cases hd
    · intro _ hbad
      have herr : (rtProcessFile rt rawFile.path ext.rtCmdErr
          ext.rtOutExists).2.isSome = true := by
        rw [hiff]
        rcases hbad with h | h <;> simp [h]
      exact ⟨by simpa [runJob] using herr, by
        simpa [runJob] using hfail herr⟩
  | some dcfg =>
    cases hd : (dngConvertFile dcfg rawFile.path ext.dngCmdErr
      ext.dngOutExists ext.dngAltExists).2 with
    | some e =>
      refine ⟨Or.inr ⟨by simp [runJob, hd], by simp [runJob, hd]⟩, ?_, ?_⟩
      · intro dcfg' hdc _
        cases hdc
        exact ⟨by simp [runJob, hd], by simp [runJob, hd], by
          simp [runJob, hd]⟩
      · intro hatt
        rw [show (runJob (some dcfg) rt idx rawFile ext elapsed).2 = false
          by simp [runJob, hd]] at hatt
        cases hatt
    | none =>
      obtain ⟨hiff, hok, hfail⟩ := rtProcessFile_cases rt
        (dngConvertFile dcfg rawFile.path ext.dngCmdErr ext.dngOutExists
          ext.dngAltExists).1 ext.rtCmdErr ext.rtOutExists
      refine ⟨?_, ?_, ?_⟩
      · cases herr : (rtProcessFile rt (dngConvertFile dcfg rawFile.path
          ext.dngCmdErr ext.dngOutExists ext.dngAltExists).1 ext.rtCmdErr
          ext.rtOutExists).2 with
        | none => exact Or.inl ⟨by simp [runJob, hd, herr], by
            simpa [runJob, hd, herr] using hok herr⟩
        | some e => exact Or.inr ⟨by simp [runJob, hd, herr], by
            simpa [runJob, hd, herr] using hfail (by simp [herr])⟩
      · intro dcfg' hdc hbad
        cases hdc
        rw [hd] at hbad
        simp at hbad
      · intro _ hbad
        have herr : (rtProcessFile rt (dngConvertFile dcfg rawFile.path
            ext.dngCmdErr ext.dngOutExists ext.dngAltExists).1 ext.rtCmdErr
            ext.rtOutExists).2.isSome = true := by
          rw [hiff]
          rcases hbad with h | h <;> simp [h]
        exact ⟨by simpa [runJob, hd] using herr, by
          simpa [runJob, hd] using hfail herr⟩

/-- C8 witness: the theorem applied with DNG conversion enabled and a
failing DNG call. -/
theorem C8_outcome_witness :
    ((some c8dng = some c8dng) ∧
     (dngConvertFile c8dng c6fileA.path (some "exit status 1") false
        false).2.isSome = true) ∧
    ((runJob (some c8dng) c8rt 0 c6fileA c8ext 7).1.err.isSome = true ∧
     (runJob (some c8dng) c8rt 0 c6fileA c8ext 7).1.outputPath = "" ∧
     (runJob (some c8dng) c8rt 0 c6fileA c8ext 7).2 = false) :=
  ⟨⟨rfl, by decide⟩,
   (C8_outcome_exactly_one (some c8dng) c8rt 0 c6fileA c8ext 7).2.1 c8dng
     rfl (by decide)⟩

/-- C9: an outcome whose error is set is not marked processed by the drain
loop, so a file all of whose outcomes failed stays absent from the
processed mapping and is classified as new by the next run's filtering,
while outcomes without an error are marked processed in the same loop. -/
theorem C9_failed_outcome_not_marked (s : State) (prof : String)
    (tProc tRun : Nat → Nat) (outcomes : List ProcessResult) (k : Nat)
    (files : List FileInfo) (o : ProcessResult) (ho : o ∈ outcomes)
    (herr : o.err.isSome = true)
    (habs : s.isProcessed o.rawFile.name = false)
    (hall : ∀ p ∈ outcomes, p.rawFile.name = o.rawFile.name →
      p.err.isSome = true) :
    (drainLoop prof tProc tRun s outcomes k).1.isProcessed
      o.rawFile.name = false ∧
    (∀ f ∈ files, f.name = o.rawFile.name →
      f ∈ FilterNewFiles files
        ((drainLoop prof tProc tRun s outcomes k).1.getProcessedFilesMap)) ∧
    (∀ p ∈ outcomes, p.err = none →
      (drainLoop prof tProc tRun s outcomes k).1.isProcessed
        p.rawFile.name = true) := by
  have hnone : outcomes.any
      (fun p => !p.err.isSome && (p.rawFile.name = o.rawFile.name : Bool)) =
      false := by
    rw [List.any_eq_false]
    intro p hp
    by_cases hname : p.rawFile.name = o.rawFile.name
    · simp [hall p hp hname]
    · simp [hname]
  have habs2 : (drainLoop prof tProc tRun s outcomes k).1.isProcessed
      o.rawFile.name = false := by
    rw [drainLoop_isProcessed prof tProc tRun outcomes s k o.rawFile.name,
      habs, hnone]
    rfl
  refine ⟨habs2, ?_, ?_⟩
  · intro f hf hname
    rw [filterNewFiles_eq_filter, List.mem_filter]
    refine ⟨hf, ?_⟩
    have : (drainLoop prof tProc tRun s outcomes k).1.getProcessedFilesMap
        f.name = false := by
      have hsame : (drainLoop prof tProc tRun s outcomes
          k).1.getProcessedFilesMap f.name =
          (drainLoop prof tProc tRun s outcomes k).1.isProcessed f.name :=
        rfl
      rw [hsame, hname, habs2]
    simp [this]
  · intro p hp hperr
    rw [drainLoop_isProcessed prof tProc tRun outcomes s k p.rawFile.name]
    have : outcomes.any
        (fun q => !q.err.isSome && (q.rawFile.name = p.rawFile.name : Bool)) =
        true := by
      rw [List.any_eq_true]
      exact ⟨p, hp, by simp [hperr]⟩
    rw [this]
    simp

/-- C9 witness: a failed outcome for `A.ORF` next to a successful one for
`B.ORF`; after the drain, `A.ORF` is unmarked and still classified new,
`B.ORF` is marked. -/
theorem C9_failed_outcome_witness :
    (c9fail ∈ [c9fail, c9ok] ∧ c9fail.err.isSome = true ∧
     c1s.isProcessed c9fail.rawFile.name = false ∧
     (∀ p ∈ [c9fail, c9ok],
        p.rawFile.name = c9fail.rawFile.name → p.err.isSome = true)) ∧
    ((drainLoop "vivid" id id c1s [c9fail, c9ok] 0).1.isProcessed
        c9fail.rawFile.name = false ∧
     (∀ f ∈ c6files, f.name = c9fail.rawFile.name →
        f ∈ FilterNewFiles c6files
          ((drainLoop "vivid" id id c1s
            [c9fail, c9ok] 0).1.getProcessedFilesMap)) ∧
     (∀ p ∈ [c9fail, c9ok], p.err = none →
        (drainLoop "vivid" id id c1s [c9fail, c9ok] 0).1.isProcessed
          p.rawFile.name = true)) :=
  ⟨⟨by decide, by decide, by decide, by decide⟩,
   C9_failed_outcome_not_marked c1s "vivid" id id [c9fail, c9ok] 0 c6files
     c9fail (by decide) (by decide) (by decide) (by decide)⟩

end CameraToImmich
